import Mathlib

/-!
Verification development for the FCM fan-out relay
(`src/unnamed/part_000`, the richest variant: `sendBatchWithFallback`
and the `POST /send-force-online` handler).

The embedding models:
  * JSON response bodies as an inductive `Json` value (what `res.json` emits);
  * the request body's `tokens` / `registration_ids` fields as `JsField`
    (absent, present-but-not-an-array, or an array of strings);
  * the provider handle `admin.messaging()` as a `Messaging` record whose
    optional fields mirror the `typeof messaging.X === "function"` probes;
  * provider results as `ProviderResult` with optional fields mirroring the
    `Array.isArray(resp.responses)` / `typeof resp.successCount === "number"`
    shape checks;
  * the batching loop `for (let i = 0; i < tokens.length; i += MAX)` as
    `batchLoop`, which also records the loop counter `i` (the batch's
    start offset into the token list);
  * the per-batch dispatch `sendBatchWithFallback` and the handler loop
    (normalization, summary accumulation, abort-on-error) as pure functions
    over these types, with provider calls passed in as `Except`-valued
    functions (an `Except.error` is a thrown/rejected provider call).
-/

namespace FcmRelay

/-- JSON values, used to model the exact response bodies the handler emits. -/
inductive Json where
  | null : Json
  | bool (b : Bool) : Json
  | num (n : Int) : Json
  | str (s : String) : Json
  | arr (xs : List Json) : Json
  | obj (fields : List (String × Json)) : Json

/-- Field lookup in a JSON object; `none` on non-objects or absent keys. -/
def Json.lookup (j : Json) (key : String) : Option Json :=
  match j with
  | .obj fields => ((fields.find? fun p => p.fst == key).map fun p => p.snd)
  | _ => none

/-- A request-body field as the handler observes it: absent (or `undefined`),
present but not an array, or an array of (token) strings. -/
inductive JsField where
  | absent : JsField
  | nonArray : JsField
  | arr (xs : List String) : JsField
deriving DecidableEq

/-- The request body fields consulted by `POST /send-force-online`. -/
structure ReqBody where
  tokens : JsField
  registration_ids : JsField
deriving DecidableEq

/-- `Array.isArray(body.tokens) ? body.tokens
    : Array.isArray(body.registration_ids) ? body.registration_ids : null`. -/
def selectTokensJs (body : ReqBody) : Option (List String) :=
  match body.tokens with
  | .arr xs => some xs
  | _ =>
    match body.registration_ids with
    | .arr ys => some ys
    | _ => none

/-- `const MAX = 500;` — the provider-legal batch size bound. -/
def MAX : Nat := 500

/-- The batching loop
`for (let i = 0; i < tokens.length; i += MAX) batches.push(tokens.slice(i, i + MAX));`
returning each loop counter `i` (the batch's start offset) with its slice
`tokens.slice(i, i + max)`. -/
def batchLoop (max : Nat) (xs : List α) (i : Nat) : List (Nat × List α) :=
  if h : i < xs.length ∧ 0 < max then
    (i, (xs.drop i).take max) :: batchLoop max xs (i + max)
  else []
termination_by xs.length - i
decreasing_by
  simp_wf
  omega

/-- The `batches` array built by the handler (offsets dropped). -/
def tokenBatches (tokens : List String) : List (List String) :=
  (batchLoop MAX tokens 0).map fun p => p.snd

/-- The start offsets (the loop counters `i`) of the batches. -/
def batchOffsets (tokens : List String) : List Nat :=
  (batchLoop MAX tokens 0).map fun p => p.fst

/-- A single per-token FCM message
`{token, data: {action: "start_core_service"}, android: {priority: "high", ttl: 60*1000}}`. -/
structure FcmMessage where
  token : String
  action : String
  priority : String
  ttl : Nat
deriving DecidableEq

/-- Builds the per-token message with the fixed payload. -/
def mkMessage (token : String) : FcmMessage :=
  { token := token, action := "start_core_service", priority := "high", ttl := 60 * 1000 }

/-- The multicast message
`{tokens: batchTokens, data: {action: "start_core_service"}, android: {priority: "high", ttl: 60*1000}}`. -/
structure MulticastMessage where
  tokens : List String
  action : String
  priority : String
  ttl : Nat
deriving DecidableEq

/-- Builds the multicast message for one batch. -/
def multicastMessage (batchTokens : List String) : MulticastMessage :=
  { tokens := batchTokens, action := "start_core_service", priority := "high", ttl := 60 * 1000 }

/-- One entry of a provider result's `responses` array:
`{success: bool}` or `{success: false, error: <message>}`. -/
structure SendResponse where
  success : Bool
  error : Option String
deriving DecidableEq

/-- A provider result as the normalizer observes it. `none` in `responses`
models `resp.responses` not being an array; `none` in the counts models
`typeof resp.successCount !== "number"` (resp. `failureCount`). -/
structure ProviderResult where
  responses : Option (List SendResponse)
  successCount : Option Int
  failureCount : Option Int
deriving DecidableEq

/-- The provider handle `admin.messaging()`: `sendMulticast` / `sendAll` are
optional (the code probes `typeof messaging.X === "function"`), `send` is the
always-present single-target call. An `Except.error` is a rejected call; its
payload is the error's message string. -/
structure Messaging where
  sendMulticast : Option (MulticastMessage → Except String ProviderResult)
  sendAll : Option (List FcmMessage → Except String ProviderResult)
  send : FcmMessage → Except String Unit

/-- One settled entry of the sequential fallback:
`{success: true, result}` or `{success: false, error}`. -/
structure SettledEntry where
  success : Bool
  error : Option String
deriving DecidableEq

/-- The sequential-per-target fallback of `sendBatchWithFallback`
(lines 118-137): one `messaging.send` per token with a local catch, then
`responses`, `successCount = responses.filter(r => r.success).length`,
`failureCount = responses.length - successCount`. -/
def sequentialFallback (send : FcmMessage → Except String Unit)
    (batchTokens : List String) : ProviderResult :=
  let settled : List SettledEntry := batchTokens.map fun token =>
    match send (mkMessage token) with
    | .ok _ => { success := true, error := none }
    | .error e => { success := false, error := some e }
  let responses : List SendResponse := settled.map fun s =>
    if s.success then { success := true, error := none }
    else { success := false, error := some (s.error.getD "") }
  let successCount := (responses.filter fun r => r.success).length
  let failureCount := responses.length - successCount
  { responses := some responses,
    successCount := some (successCount : Int),
    failureCount := some (failureCount : Int) }

/-- The per-token response the sequential fallback produces for one token
(the composition of its settle map and its normalize map). -/
def perTokenResponse (send : FcmMessage → Except String Unit)
    (token : String) : SendResponse :=
  match send (mkMessage token) with
  | .ok _ => { success := true, error := none }
  | .error e => { success := false, error := some e }

/-- `sendBatchWithFallback(batchTokens)` (lines 89-138): prefer
`sendMulticast`, else `sendAll` over per-token messages, else the
sequential-per-target fallback (which itself never throws). -/
def sendBatchWithFallback (m : Messaging) (batchTokens : List String) :
    Except String ProviderResult :=
  match m.sendMulticast with
  | some f => f (multicastMessage batchTokens)
  | none =>
    match m.sendAll with
    | some g => g (batchTokens.map mkMessage)
    | none => .ok (sequentialFallback m.send batchTokens)

/-- One normalized per-target entry pushed into a batch's `details`:
`{success: bool|null, error: string|null, index}`. -/
structure TargetEntry where
  success : Option Bool
  error : Option String
  index : Nat
deriving DecidableEq

/-- One entry of the handler's `summary` array:
`{batchSize, successCount, failureCount, details}`. -/
structure BatchSummary where
  batchSize : Nat
  successCount : Int
  failureCount : Int
  details : List TargetEntry
deriving DecidableEq

/-- Lines 206-208: `responsesArray`, then
`successCount = typeof resp.successCount === "number" ? resp.successCount
  : (responsesArray.filter(r => r.success).length || 0)` and
`failureCount = typeof resp.failureCount === "number" ? resp.failureCount
  : responsesArray.length - successCount`. -/
def normalizeCounts (resp : ProviderResult) : Int × Int :=
  let responsesArray := resp.responses.getD []
  let successCount : Int :=
    match resp.successCount with
    | some n => n
    | none => ((responsesArray.filter fun r => r.success).length : Int)
  let failureCount : Int :=
    match resp.failureCount with
    | some n => n
    | none => (responsesArray.length : Int) - successCount
  (successCount, failureCount)

/-- Lines 210-216: `mapped` — per-response entries when `responsesArray` is
non-empty, otherwise one `{success: null, error: "no per-target info", index}`
per token of the batch. -/
def normalizeMapped (resp : ProviderResult) (batch : List String) : List TargetEntry :=
  let responsesArray := resp.responses.getD []
  if 0 < responsesArray.length then
    responsesArray.mapIdx fun idx r =>
      { success := some r.success, error := r.error, index := idx }
  else
    batch.mapIdx fun idx _ =>
      { success := none, error := some "no per-target info", index := idx }

/-- Lines 224-229: the summary entry pushed for one batch. -/
def normalizeBatch (resp : ProviderResult) (batch : List String) : BatchSummary :=
  { batchSize := batch.length,
    successCount := (normalizeCounts resp).fst,
    failureCount := (normalizeCounts resp).snd,
    details := normalizeMapped resp batch }

/-- The handler's batch loop (lines 174-230): dispatch each batch in order;
a thrown batch call aborts with its error (the 500 path), otherwise the
normalized summaries accumulate in batch order. -/
def processBatches (m : Messaging) : List (List String) → Except String (List BatchSummary)
  | [] => .ok []
  | b :: bs =>
    match sendBatchWithFallback m b with
    | .error e => .error e
    | .ok resp =>
      match processBatches m bs with
      | .error e => .error e
      | .ok rest => .ok (normalizeBatch resp b :: rest)

/-- The batches on which the loop actually invokes `sendBatchWithFallback`:
processing stops right after the first batch whose call throws. -/
def sentBatches (m : Messaging) : List (List String) → List (List String)
  | [] => []
  | b :: bs =>
    match sendBatchWithFallback m b with
    | .error _ => [b]
    | .ok _ => b :: sentBatches m bs

/-- The 400 response `{success: false, error: "No tokens provided or invalid format"}`. -/
def badRequestResponse : Nat × Json :=
  (400, .obj [("success", .bool false),
              ("error", .str "No tokens provided or invalid format")])

/-- The 500 response for a thrown batch call:
`{success: false, error: err?.message || "send_error"}` (an empty message is
falsy in JS and falls back to `"send_error"`). -/
def batchErrorResponse (e : String) : Nat × Json :=
  (500, .obj [("success", .bool false),
              ("error", .str (if e = "" then "send_error" else e))])

/-- Encodes one `details` entry as the JSON the handler emits. -/
def targetEntryToJson (t : TargetEntry) : Json :=
  .obj [("success", match t.success with | none => .null | some b => .bool b),
        ("error", match t.error with | none => .null | some s => .str s),
        ("index", .num (t.index : Int))]

/-- Encodes one summary entry as the JSON the handler emits. -/
def batchSummaryToJson (b : BatchSummary) : Json :=
  .obj [("batchSize", .num (b.batchSize : Int)),
        ("successCount", .num b.successCount),
        ("failureCount", .num b.failureCount),
        ("details", .arr (b.details.map targetEntryToJson))]

/-- The `POST /send-force-online` handler (lines 145-239) as
status code × JSON body, with the provider handle passed in. -/
def handleSendForceOnline (m : Messaging) (body : ReqBody) : Nat × Json :=
  match selectTokensJs body with
  | none => badRequestResponse
  | some ts =>
    if ts.length = 0 then badRequestResponse
    else
      match processBatches m (tokenBatches ts) with
      | .error e => batchErrorResponse e
      | .ok summary =>
        (200, .obj [("success", .bool true),
                    ("batches", .arr (summary.map batchSummaryToJson))])

/-! ### Token Sanitizer — modelled from the spec

The spec's §4.1 Token Sanitizer (and the DispatchReport statistics built from
it) belongs to a richer variant of this program that is not among the source
files; the request handler above is its caller-side context. It is modelled
here from the spec's words for the claims that are about it. -/

/-- A raw input element: a string, or a non-string value (carried with a
string rendering for the rejection log). -/
inductive RawElem where
  | str (s : String) : RawElem
  | other (rendering : String) : RawElem
deriving DecidableEq

/-- Rejection reasons of the Token Sanitizer. -/
inductive RejectReason where
  | NOT_A_STRING : RejectReason
  | EMPTY_OR_SENTINEL : RejectReason
  | TOO_SHORT : RejectReason
  | DUPLICATE : RejectReason
deriving DecidableEq

/-- A raw identifier that passed sanitation, with its original position. -/
structure CleanIdentifier where
  value : String
  originalIndex : Nat
deriving DecidableEq

/-- A rejected raw identifier: position, reason, raw value. -/
structure RejectedIdentifier where
  originalIndex : Nat
  reason : RejectReason
  rawValue : String
deriving DecidableEq

/-- JS `String.prototype.trim`: strip leading and trailing whitespace
(modelled directly over the character list). -/
def jsTrim (s : String) : String :=
  String.mk
    (((s.data.dropWhile fun c => c.isWhitespace).reverse.dropWhile
        fun c => c.isWhitespace).reverse)

/-- JS `String.prototype.toLowerCase` (modelled over the character list). -/
def jsToLower (s : String) : String :=
  String.mk (s.data.map Char.toLower)

/-- Sentinel garbage values, compared case-insensitively. -/
def isSentinel (t : String) : Bool :=
  jsToLower t == "unavailable" || jsToLower t == "null" || jsToLower t == "undefined"

/-- Modelled from the spec: the Token Sanitizer's iteration (§4.1), missing
from the provided source files. In original order: (a) non-string →
NOT_A_STRING; (b) trim; (c) empty or sentinel (case-insensitive) →
EMPTY_OR_SENTINEL; (d) trimmed length < 20 → TOO_SHORT; (e) trimmed value
already accepted → DUPLICATE; survivors become CleanIdentifiers keeping their
original index, first occurrence winning. `idx` is the position of the list
head in the original input; `seen` the already-accepted trimmed values. -/
def sanitizeAux (idx : Nat) (seen : List String) :
    List RawElem → List CleanIdentifier × List RejectedIdentifier
  | [] => ([], [])
  | e :: rest =>
    match e with
    | .other rendering =>
      let p := sanitizeAux (idx + 1) seen rest
      (p.fst, { originalIndex := idx, reason := .NOT_A_STRING, rawValue := rendering } :: p.snd)
    | .str s =>
      let t := jsTrim s
      if t = "" || isSentinel t then
        let p := sanitizeAux (idx + 1) seen rest
        (p.fst, { originalIndex := idx, reason := .EMPTY_OR_SENTINEL, rawValue := s } :: p.snd)
      else if t.length < 20 then
        let p := sanitizeAux (idx + 1) seen rest
        (p.fst, { originalIndex := idx, reason := .TOO_SHORT, rawValue := s } :: p.snd)
      else if seen.contains t then
        let p := sanitizeAux (idx + 1) seen rest
        (p.fst, { originalIndex := idx, reason := .DUPLICATE, rawValue := s } :: p.snd)
      else
        let p := sanitizeAux (idx + 1) (t :: seen) rest
        ({ value := t, originalIndex := idx } :: p.fst, p.snd)

/-- Modelled from the spec: `sanitize(raw) -> (cleaned, rejected)` (§4.1). -/
def sanitize (raw : List RawElem) : List CleanIdentifier × List RejectedIdentifier :=
  sanitizeAux 0 [] raw

/-! ### Concrete inputs used by witnesses -/

/-- A provider result with one successful per-target response. -/
def demoResult : ProviderResult :=
  { responses := some [{ success := true, error := none }],
    successCount := some 1, failureCount := some 0 }

/-- A request body carrying one token in the `tokens` field. -/
def demoBody : ReqBody := { tokens := .arr ["tok1"], registration_ids := .absent }

/-- A provider whose multicast call always succeeds. -/
def demoMessagingOk : Messaging :=
  { sendMulticast := some fun _ => .ok demoResult,
    sendAll := none, send := fun _ => .ok () }

/-- A fixed multicast call used to exercise the first ladder rung. -/
def fMulti : MulticastMessage → Except String ProviderResult := fun _ => .ok demoResult

/-- A fixed bulk-array call used to exercise the second ladder rung. -/
def gAll : List FcmMessage → Except String ProviderResult := fun _ => .ok demoResult

/-- A provider exposing both bulk calls (multicast must win). -/
def mMulti : Messaging :=
  { sendMulticast := some fMulti, sendAll := some gAll, send := fun _ => .ok () }

/-- A provider exposing only the bulk-array call. -/
def mAll : Messaging :=
  { sendMulticast := none, sendAll := some gAll, send := fun _ => .ok () }

/-- A provider exposing only the single-target call. -/
def mSeq : Messaging :=
  { sendMulticast := none, sendAll := none, send := fun _ => .ok () }

/-- A single-target call that fails exactly on the token `"bad"`. -/
def demoSend : FcmMessage → Except String Unit :=
  fun msg => if msg.token = "bad" then .error "boom" else .ok ()

/-- A provider whose multicast call throws exactly on the batch `["B"]`. -/
def mBatchFail : Messaging :=
  { sendMulticast := some fun msg =>
      if msg.tokens = ["B"] then .error "boom" else .ok demoResult,
    sendAll := none, send := fun _ => .ok () }

/-- 501 tokens: batch 1 is 500 copies of `"A"`, batch 2 is `["B"]`. -/
def twoBatchTokens : List String := List.replicate 500 "A" ++ ["B"]

/-- A request body carrying the 501 tokens above. -/
def twoBatchBody : ReqBody := { tokens := .arr twoBatchTokens, registration_ids := .absent }

/-- Raw sanitizer input: one valid token, one too-short string, one non-string. -/
def demoRaw : List RawElem := [.str "AAAAAAAAAAAAAAAAAAAA", .str "short", .other "42"]

/-- The cleaned list `sanitize demoRaw` produces. -/
def demoCleaned : List CleanIdentifier :=
  [{ value := "AAAAAAAAAAAAAAAAAAAA", originalIndex := 0 }]

/-- The rejected list `sanitize demoRaw` produces. -/
def demoRejected : List RejectedIdentifier :=
  [{ originalIndex := 1, reason := .TOO_SHORT, rawValue := "short" },
   { originalIndex := 2, reason := .NOT_A_STRING, rawValue := "42" }]

/-- A request body with no usable token field at all. -/
def badBody : ReqBody := { tokens := .absent, registration_ids := .nonArray }

/-- A request body whose `tokens` is not an array but whose
`registration_ids` is. -/
def regBody : ReqBody := { tokens := .nonArray, registration_ids := .arr ["tok2"] }

/-- A provider result carrying numeric counts (first shape of C8). -/
def respCounts : ProviderResult :=
  { responses := some [], successCount := some 5, failureCount := some 2 }

/-- A provider result carrying only a responses array (second shape of C8). -/
def respOnly : ProviderResult :=
  { responses := some [{ success := true, error := none },
                       { success := false, error := some "gone" }],
    successCount := none, failureCount := none }

/-- A provider result carrying neither counts nor responses (third shape of C8). -/
def respNeither : ProviderResult :=
  { responses := none, successCount := none, failureCount := none }

/-! ## Helper lemmas -/

theorem batchLoop_eq_nil_iff {α : Type} (max : Nat) (xs : List α) (i : Nat) :
    batchLoop max xs i = [] ↔ ¬ (i < xs.length ∧ 0 < max) := by
  constructor
  · intro h
    by_contra hc
    rw [batchLoop, dif_pos hc] at h
    simp at h
  · intro h
    rw [batchLoop, dif_neg h]

theorem batchLoop_flatten {α : Type} (max : Nat) (hm : 0 < max) (xs : List α) (i : Nat) :
    ((batchLoop max xs i).map fun p => p.snd).flatten = xs.drop i := by
  have key : ∀ n i, xs.length - i ≤ n →
      ((batchLoop max xs i).map fun p => p.snd).flatten = xs.drop i := by
    intro n
    induction n with
    | zero =>
      intro i hi
      have hc : ¬ (i < xs.length ∧ 0 < max) := by omega
      rw [batchLoop, dif_neg hc]
      have hle : xs.length ≤ i := by omega
      simp [List.drop_eq_nil_of_le hle]
    | succ n ih =>
      intro i hi
      by_cases hc : i < xs.length ∧ 0 < max
      · rw [batchLoop, dif_pos hc]
        simp only [List.map_cons, List.flatten_cons]
        rw [ih (i + max) (by omega)]
        rw [← List.drop_drop]
        exact List.take_append_drop max (xs.drop i)
      · rw [batchLoop, dif_neg hc]
        have hle : xs.length ≤ i := by omega
        simp [List.drop_eq_nil_of_le hle]
  exact key (xs.length - i) i le_rfl

theorem batchLoop_mem {α : Type} (max : Nat) (xs : List α) (i : Nat)
    (p : Nat × List α) (hp : p ∈ batchLoop max xs i) :
    p.snd.length ≤ max ∧ p.snd ≠ [] := by
  have key : ∀ n i, xs.length - i ≤ n → ∀ p ∈ batchLoop max xs i,
      p.snd.length ≤ max ∧ p.snd ≠ [] := by
    intro n
    induction n with
    | zero =>
      intro i hi q hq
      have hc : ¬ (i < xs.length ∧ 0 < max) := by omega
      rw [batchLoop, dif_neg hc] at hq
      simp at hq
    | succ n ih =>
      intro i hi q hq
      by_cases hc : i < xs.length ∧ 0 < max
      · rw [batchLoop, dif_pos hc] at hq
        rcases List.mem_cons.mp hq with h | h
        · subst h
          constructor
          · simp [List.length_take]
          · have hlen : ((xs.drop i).take max).length = min max (xs.length - i) := by
              simp [List.length_take]
            have hpos : 0 < ((xs.drop i).take max).length := by omega
            exact List.ne_nil_of_length_pos hpos
        · exact ih (i + max) (by omega) q h
      · rw [batchLoop, dif_neg hc] at hq
        simp at hq
  exact key (xs.length - i) i le_rfl p hp

theorem batchLoop_dropLast_sizes {α : Type} (max : Nat) (xs : List α) (i : Nat)
    (q : Nat) (hq : q ∈ ((batchLoop max xs i).map fun p => p.snd.length).dropLast) :
    q = max := by
  have key : ∀ n i, xs.length - i ≤ n →
      ∀ q ∈ ((batchLoop max xs i).map fun p => p.snd.length).dropLast, q = max := by
    intro n
    induction n with
    | zero =>
      intro i hi q hq
      have hc : ¬ (i < xs.length ∧ 0 < max) := by omega
      rw [batchLoop, dif_neg hc] at hq
      simp at hq
    | succ n ih =>
      intro i hi q hq
      by_cases hc : i < xs.length ∧ 0 < max
      · rw [batchLoop, dif_pos hc] at hq
        simp only [List.map_cons] at hq
        rcases hrest : batchLoop max xs (i + max) with _ | ⟨a, l⟩
        · rw [hrest] at hq
          simp at hq
        · rw [hrest, List.map_cons] at hq
          have hlt : i + max < xs.length := by
            by_contra hnlt
            have hnil : batchLoop max xs (i + max) = [] :=
              (batchLoop_eq_nil_iff max xs (i + max)).mpr (by omega)
            rw [hrest] at hnil
            simp at hnil
          rw [List.dropLast_cons₂] at hq
          rcases List.mem_cons.mp hq with h | h
          · rw [h]
            simp [List.length_take]
            omega
          · have h2 : q ∈ ((batchLoop max xs (i + max)).map fun p => p.snd.length).dropLast := by
              simp only [hrest, List.map_cons]
              exact h
            exact ih (i + max) (by omega) q h2
      · rw [batchLoop, dif_neg hc] at hq
        simp at hq
  exact key (xs.length - i) i le_rfl q hq

theorem batchLoop_1234 (xs : List String) (h : xs.length = 1234) :
    batchLoop 500 xs 0 =
      [(0, (xs.drop 0).take 500), (500, (xs.drop 500).take 500),
       (1000, (xs.drop 1000).take 500)] := by
  rw [batchLoop, dif_pos (by omega)]
  rw [batchLoop, dif_pos (by omega)]
  rw [batchLoop, dif_pos (by omega)]
  rw [batchLoop, dif_neg (by omega)]

theorem tokenBatches_small (ts : List String) (h1 : 0 < ts.length) (h2 : ts.length ≤ 500) :
    tokenBatches ts = [ts] := by
  unfold tokenBatches MAX
  rw [batchLoop, dif_pos (by omega)]
  rw [batchLoop, dif_neg (by omega)]
  simp [List.take_of_length_le h2]

theorem tokenBatches_two (l1 l2 : List String) (h1 : l1.length = 500)
    (h2 : 0 < l2.length) (h3 : l2.length ≤ 500) :
    tokenBatches (l1 ++ l2) = [l1, l2] := by
  unfold tokenBatches MAX
  rw [batchLoop, dif_pos (by simp; omega)]
  rw [batchLoop, dif_pos (by simp; omega)]
  rw [batchLoop, dif_neg (by simp; omega)]
  have e1 : (l1 ++ l2).take 500 = l1 := by
    rw [← h1]
    exact List.take_left l1 l2
  have ed : (l1 ++ l2).drop 500 = l2 := by
    rw [← h1]
    exact List.drop_left l1 l2
  simp [e1, ed, List.take_of_length_le h3]

/-! ## Claims -/

/-- C7: Partitioning 1234 identifiers with maxSize 500 yields batches of sizes
[500, 500, 234] with start offsets [0, 500, 1000]; in general every batch has
at most 500 members and every batch except possibly the last has exactly 500. -/
theorem claim7_partition_1234 (xs : List String) (h : xs.length = 1234) :
    (tokenBatches xs).map List.length = [500, 500, 234] ∧
    batchOffsets xs = [0, 500, 1000] ∧
    (∀ (ys : List String) (b : List String), b ∈ tokenBatches ys → b.length ≤ 500) ∧
    (∀ (ys : List String) (q : Nat),
        q ∈ ((tokenBatches ys).map List.length).dropLast → q = 500) := by
  refine ⟨?_, ?_, ?_, ?_⟩
  · unfold tokenBatches MAX
    rw [batchLoop_1234 xs h]
    simp [List.length_take, h]
  · unfold batchOffsets MAX
    rw [batchLoop_1234 xs h]
    simp
  · intro ys b hb
    simp only [tokenBatches, MAX, List.mem_map] at hb
    obtain ⟨p, hp, hpb⟩ := hb
    rw [← hpb]
    exact (batchLoop_mem 500 ys 0 p hp).1
  · intro ys q hq
    apply batchLoop_dropLast_sizes 500 ys 0 q
    simpa [tokenBatches, MAX, List.map_map, Function.comp] using hq

/-- Witness for C7 at the concrete 1234-element input. -/
theorem claim7_partition_1234_witness :
    (List.replicate 1234 "A").length = 1234 ∧
    ((tokenBatches (List.replicate 1234 "A")).map List.length = [500, 500, 234] ∧
     batchOffsets (List.replicate 1234 "A") = [0, 500, 1000] ∧
     (∀ (ys : List String) (b : List String), b ∈ tokenBatches ys → b.length ≤ 500) ∧
     (∀ (ys : List String) (q : Nat),
         q ∈ ((tokenBatches ys).map List.length).dropLast → q = 500)) :=
  ⟨List.length_replicate 1234 "A",
   claim7_partition_1234 (List.replicate 1234 "A") (List.length_replicate 1234 "A")⟩

/-- C9: For every non-empty token list, the batches concatenate back to the
original list in order, and every batch is non-empty of length at most 500. -/
theorem claim9_concat_roundtrip (ts : List String) (h : ts ≠ []) :
    (tokenBatches ts).flatten = ts ∧
    ∀ b ∈ tokenBatches ts, b ≠ [] ∧ b.length ≤ 500 := by
  constructor
  · have hf := batchLoop_flatten 500 (by norm_num) ts 0
    simpa [tokenBatches, MAX] using hf
  · intro b hb
    simp only [tokenBatches, MAX, List.mem_map] at hb
    obtain ⟨p, hp, hpb⟩ := hb
    rw [← hpb]
    exact ⟨(batchLoop_mem 500 ts 0 p hp).2, (batchLoop_mem 500 ts 0 p hp).1⟩

/-- Witness for C9 at a concrete non-empty token list. -/
theorem claim9_concat_roundtrip_witness :
    (["tokA", "tokB"] : List String) ≠ [] ∧
    ((tokenBatches ["tokA", "tokB"]).flatten = ["tokA", "tokB"] ∧
     ∀ b ∈ tokenBatches ["tokA", "tokB"], b ≠ [] ∧ b.length ≤ 500) :=
  ⟨by simp, claim9_concat_roundtrip ["tokA", "tokB"] (by simp)⟩

theorem sequentialFallback_responses (send : FcmMessage → Except String Unit)
    (ts : List String) :
    (sequentialFallback send ts).responses = some (ts.map (perTokenResponse send)) := by
  simp only [sequentialFallback, List.map_map]
  congr 1
  apply List.map_congr_left
  intro t _
  cases hsend : send (mkMessage t) <;> simp [Function.comp, perTokenResponse, hsend]

theorem sequentialFallback_counts (send : FcmMessage → Except String Unit)
    (ts : List String) :
    (sequentialFallback send ts).successCount =
      some (((ts.map (perTokenResponse send)).filter fun r => r.success).length : Int) ∧
    (sequentialFallback send ts).failureCount =
      some (((ts.map (perTokenResponse send)).length
             - ((ts.map (perTokenResponse send)).filter fun r => r.success).length : Nat) : Int) := by
  have hresp : ((ts.map fun token =>
      match send (mkMessage token) with
      | .ok _ => ({ success := true, error := none } : SettledEntry)
      | .error e => { success := false, error := some e }).map fun s =>
        if s.success then ({ success := true, error := none } : SendResponse)
        else { success := false, error := some (s.error.getD "") })
      = ts.map (perTokenResponse send) := by
    simp only [List.map_map]
    apply List.map_congr_left
    intro t _
    cases hsend : send (mkMessage t) <;> simp [Function.comp, perTokenResponse, hsend]
  simp only [sequentialFallback, hresp]
  constructor <;> trivial

/-- C2: The dispatch strategy ladder has fixed priority: a present
`sendMulticast` is always used (whatever the batch size); otherwise a present
`sendAll` is used over per-token messages; otherwise one `send` per token. -/
theorem claim2_fallback_ladder (m : Messaging) (batchTokens : List String) :
    (∀ f, m.sendMulticast = some f →
        sendBatchWithFallback m batchTokens = f (multicastMessage batchTokens)) ∧
    (m.sendMulticast = none → ∀ g, m.sendAll = some g →
        sendBatchWithFallback m batchTokens = g (batchTokens.map mkMessage)) ∧
    (m.sendMulticast = none → m.sendAll = none →
        sendBatchWithFallback m batchTokens = .ok (sequentialFallback m.send batchTokens)) := by
  refine ⟨?_, ?_, ?_⟩
  · intro f hf
    simp [sendBatchWithFallback, hf]
  · intro hmc g hg
    simp [sendBatchWithFallback, hmc, hg]
  · intro hmc hall
    simp [sendBatchWithFallback, hmc, hall]

/-- Witness for C2 on three concrete providers, one per ladder rung (the first
exposes both bulk calls and multicast wins). -/
theorem claim2_fallback_ladder_witness :
    sendBatchWithFallback mMulti ["a"] = fMulti (multicastMessage ["a"]) ∧
    sendBatchWithFallback mAll ["a"] = gAll (["a"].map mkMessage) ∧
    sendBatchWithFallback mSeq ["a"] = .ok (sequentialFallback mSeq.send ["a"]) :=
  ⟨(claim2_fallback_ladder mMulti ["a"]).1 fMulti rfl,
   (claim2_fallback_ladder mAll ["a"]).2.1 rfl gAll rfl,
   (claim2_fallback_ladder mSeq ["a"]).2.2 rfl rfl⟩

/-- C6: In the sequential-per-target fallback every token gets its own
independent call whose outcome is captured locally, so each response entry
depends only on its own token's call; on a batch of 3 where exactly the
middle target fails, successCount is 2, failureCount is 1, and all three
per-target entries are present. -/
theorem claim6_sequential_isolation (send : FcmMessage → Except String Unit)
    (t1 t2 t3 : String) (e : String)
    (h1 : send (mkMessage t1) = .ok ()) (h2 : send (mkMessage t2) = .error e)
    (h3 : send (mkMessage t3) = .ok ()) :
    (∀ ts : List String,
        (sequentialFallback send ts).responses = some (ts.map (perTokenResponse send))) ∧
    (sequentialFallback send [t1, t2, t3]).responses =
      some [{ success := true, error := none }, { success := false, error := some e },
            { success := true, error := none }] ∧
    (sequentialFallback send [t1, t2, t3]).successCount = some 2 ∧
    (sequentialFallback send [t1, t2, t3]).failureCount = some 1 := by
  refine ⟨fun ts => sequentialFallback_responses send ts, ?_, ?_, ?_⟩
  · rw [sequentialFallback_responses]
    simp [perTokenResponse, h1, h2, h3]
  · simp [sequentialFallback, h1, h2, h3, List.filter]
  · simp [sequentialFallback, h1, h2, h3, List.filter]

/-- Witness for C6: a concrete single-target call failing exactly on the
middle token of a 3-token batch. -/
theorem claim6_sequential_isolation_witness :
    demoSend (mkMessage "t1") = .ok () ∧
    demoSend (mkMessage "bad") = .error "boom" ∧
    demoSend (mkMessage "t3") = .ok () ∧
    ((∀ ts : List String,
        (sequentialFallback demoSend ts).responses =
          some (ts.map (perTokenResponse demoSend))) ∧
     (sequentialFallback demoSend ["t1", "bad", "t3"]).responses =
       some [{ success := true, error := none }, { success := false, error := some "boom" },
             { success := true, error := none }] ∧
     (sequentialFallback demoSend ["t1", "bad", "t3"]).successCount = some 2 ∧
     (sequentialFallback demoSend ["t1", "bad", "t3"]).failureCount = some 1) :=
  ⟨rfl, rfl, rfl,
   claim6_sequential_isolation demoSend "t1" "bad" "t3" "boom" rfl rfl rfl⟩

/-- C10: The sequential fallback's result always has exactly one response per
input token in input order (each determined by its own token's call), its
successCount is the number of success entries, and successCount plus
failureCount equals the number of input tokens. -/
theorem claim10_sequential_counts (send : FcmMessage → Except String Unit)
    (ts : List String) :
    (sequentialFallback send ts).responses = some (ts.map (perTokenResponse send)) ∧
    (ts.map (perTokenResponse send)).length = ts.length ∧
    (sequentialFallback send ts).successCount =
      some (((ts.map (perTokenResponse send)).filter fun r => r.success).length : Int) ∧
    ∃ s f : Int, (sequentialFallback send ts).successCount = some s ∧
      (sequentialFallback send ts).failureCount = some f ∧ s + f = (ts.length : Int) := by
  refine ⟨sequentialFallback_responses send ts, by simp,
    (sequentialFallback_counts send ts).1, ?_⟩
  refine ⟨_, _, (sequentialFallback_counts send ts).1,
    (sequentialFallback_counts send ts).2, ?_⟩
  have hle : ((ts.map (perTokenResponse send)).filter fun r => r.success).length
      ≤ (ts.map (perTokenResponse send)).length := List.length_filter_le _ _
  have hlen : (ts.map (perTokenResponse send)).length = ts.length := by simp
  omega

theorem processBatches_append_error (m : Messaging) (pre : List (List String))
    (bk : List String) (post : List (List String)) (e : String)
    (hpre : ∀ b ∈ pre, ∃ r, sendBatchWithFallback m b = .ok r)
    (herr : sendBatchWithFallback m bk = .error e) :
    processBatches m (pre ++ bk :: post) = .error e := by
  induction pre with
  | nil => simp [processBatches, herr]
  | cons b bs ih =>
    obtain ⟨r, hr⟩ := hpre b (List.mem_cons_self b bs)
    have ih2 := ih fun x hx => hpre x (List.mem_cons_of_mem b hx)
    simp [processBatches, hr, ih2]

theorem sentBatches_append_error (m : Messaging) (pre : List (List String))
    (bk : List String) (post : List (List String)) (e : String)
    (hpre : ∀ b ∈ pre, ∃ r, sendBatchWithFallback m b = .ok r)
    (herr : sendBatchWithFallback m bk = .error e) :
    sentBatches m (pre ++ bk :: post) = pre ++ [bk] := by
  induction pre with
  | nil => simp [sentBatches, herr]
  | cons b bs ih =>
    obtain ⟨r, hr⟩ := hpre b (List.mem_cons_self b bs)
    have ih2 := ih fun x hx => hpre x (List.mem_cons_of_mem b hx)
    simp [sentBatches, hr, ih2]

theorem handleSend_ok (m : Messaging) (body : ReqBody) (ts : List String)
    (summary : List BatchSummary)
    (hsel : selectTokensJs body = some ts) (hne : ts ≠ [])
    (hok : processBatches m (tokenBatches ts) = .ok summary) :
    handleSendForceOnline m body =
      (200, .obj [("success", .bool true),
                  ("batches", .arr (summary.map batchSummaryToJson))]) := by
  simp only [handleSendForceOnline, hsel]
  rw [if_neg (by simpa [List.length_eq_zero] using hne)]
  rw [hok]

/-- C1: If a batch's provider call throws, the handler stops before any
subsequent batch (the trace of dispatched batches ends at the failing one),
responds 500 with success false and the error's message, and the response
carries no batches data (earlier batches' results are discarded). -/
theorem claim1_batch_error_aborts (m : Messaging) (body : ReqBody) (ts : List String)
    (pre : List (List String)) (bk : List String) (post : List (List String)) (e : String)
    (hsel : selectTokensJs body = some ts) (hne : ts ≠ [])
    (hsplit : tokenBatches ts = pre ++ bk :: post)
    (hpre : ∀ b ∈ pre, ∃ r, sendBatchWithFallback m b = .ok r)
    (herr : sendBatchWithFallback m bk = .error e) (hee : e ≠ "") :
    handleSendForceOnline m body =
      (500, .obj [("success", .bool false), ("error", .str e)]) ∧
    Json.lookup (handleSendForceOnline m body).snd "batches" = none ∧
    sentBatches m (tokenBatches ts) = pre ++ [bk] := by
  have hproc : processBatches m (tokenBatches ts) = .error e := by
    rw [hsplit]
    exact processBatches_append_error m pre bk post e hpre herr
  have hhandle : handleSendForceOnline m body =
      (500, .obj [("success", .bool false), ("error", .str e)]) := by
    simp only [handleSendForceOnline, hsel]
    rw [if_neg (by simpa [List.length_eq_zero] using hne)]
    simp only [hproc, batchErrorResponse]
    rw [if_neg hee]
  refine ⟨hhandle, ?_, ?_⟩
  · rw [hhandle]
    rfl
  · rw [hsplit]
    exact sentBatches_append_error m pre bk post e hpre herr

/-- Witness for C1: 501 tokens form two batches; the provider throws exactly
on the second-batch call in one run and on the first batch in none, so here
batch 1 succeeds, batch 2 throws, and the 500 response carries no batches. -/
theorem claim1_batch_error_aborts_witness :
    selectTokensJs twoBatchBody = some twoBatchTokens ∧
    twoBatchTokens ≠ [] ∧
    tokenBatches twoBatchTokens = [List.replicate 500 "A", ["B"]] ∧
    sendBatchWithFallback mBatchFail (List.replicate 500 "A") = .ok demoResult ∧
    sendBatchWithFallback mBatchFail ["B"] = .error "boom" ∧
    (handleSendForceOnline mBatchFail twoBatchBody =
       (500, .obj [("success", .bool false), ("error", .str "boom")]) ∧
     Json.lookup (handleSendForceOnline mBatchFail twoBatchBody).snd "batches" = none ∧
     sentBatches mBatchFail (tokenBatches twoBatchTokens) =
       [List.replicate 500 "A"] ++ [["B"]]) := by
  have hsplit : tokenBatches twoBatchTokens = [List.replicate 500 "A", ["B"]] := by
    unfold twoBatchTokens
    exact tokenBatches_two (List.replicate 500 "A") ["B"]
      (List.length_replicate 500 "A") (by decide) (by decide)
  have htne : twoBatchTokens ≠ [] := by
    unfold twoBatchTokens
    intro hEq
    have hLen := congrArg List.length hEq
    rw [List.length_append, List.length_replicate] at hLen
    simp at hLen
  have hok : sendBatchWithFallback mBatchFail (List.replicate 500 "A") = .ok demoResult := rfl
  have herr : sendBatchWithFallback mBatchFail ["B"] = .error "boom" := rfl
  refine ⟨rfl, htne, hsplit, hok, herr, ?_⟩
  exact claim1_batch_error_aborts mBatchFail twoBatchBody twoBatchTokens
    [List.replicate 500 "A"] ["B"] [] "boom" rfl htne hsplit
    (by
      intro b hb
      have hb2 := List.mem_singleton.mp hb
      subst hb2
      exact ⟨demoResult, hok⟩)
    herr (by decide)

/-- C5: The token list is the first present array-typed field among `tokens`
and `registration_ids`; when both fields are absent, empty, or non-array the
handler responds 400 with exactly success false and the fixed error string. -/
theorem claim5_token_selection (m : Messaging) (body : ReqBody) (xs ys : List String) :
    (body.tokens = .arr xs → selectTokensJs body = some xs) ∧
    ((body.tokens = .absent ∨ body.tokens = .nonArray) →
      body.registration_ids = .arr ys → selectTokensJs body = some ys) ∧
    ((body.tokens = .absent ∨ body.tokens = .nonArray ∨ body.tokens = .arr []) →
     (body.registration_ids = .absent ∨ body.registration_ids = .nonArray ∨
        body.registration_ids = .arr []) →
     handleSendForceOnline m body =
       (400, .obj [("success", .bool false),
                   ("error", .str "No tokens provided or invalid format")])) := by
  refine ⟨?_, ?_, ?_⟩
  · intro h
    simp [selectTokensJs, h]
  · rintro (h | h) hr <;> simp [selectTokensJs, h, hr]
  · rintro (h | h | h) (hr | hr | hr) <;>
      simp [handleSendForceOnline, selectTokensJs, badRequestResponse, h, hr]

/-- Witness for C5: selection from `tokens`, selection from
`registration_ids` when `tokens` is non-array, and the exact 400 response
when both fields are unusable. -/
theorem claim5_token_selection_witness :
    selectTokensJs demoBody = some ["tok1"] ∧
    selectTokensJs regBody = some ["tok2"] ∧
    handleSendForceOnline mSeq badBody =
      (400, .obj [("success", .bool false),
                  ("error", .str "No tokens provided or invalid format")]) :=
  ⟨(claim5_token_selection mSeq demoBody ["tok1"] ["tok2"]).1 rfl,
   (claim5_token_selection mSeq regBody ["tok1"] ["tok2"]).2.1 (Or.inr rfl) rfl,
   (claim5_token_selection mSeq badBody ["tok1"] ["tok2"]).2.2
     (Or.inl rfl) (Or.inr (Or.inl rfl))⟩

/-- C8: Result normalization across the three provider result shapes: numeric
counts are used directly; counts are derived by filtering when only a
responses array is present; and with neither, every target of the batch gets
success null and error "no per-target info". -/
theorem claim8_normalization_shapes (resp : ProviderResult) (batch : List String) :
    (∀ s f : Int, resp.successCount = some s → resp.failureCount = some f →
        normalizeCounts resp = (s, f)) ∧
    (∀ rs, resp.successCount = none → resp.failureCount = none →
        resp.responses = some rs →
        normalizeCounts resp = (((rs.filter fun r => r.success).length : Int),
          (rs.length : Int) - ((rs.filter fun r => r.success).length : Int))) ∧
    (resp = { responses := none, successCount := none, failureCount := none } →
        normalizeBatch resp batch =
          { batchSize := batch.length, successCount := 0, failureCount := 0,
            details := batch.mapIdx fun idx _ =>
              { success := none, error := some "no per-target info", index := idx } }) := by
  refine ⟨?_, ?_, ?_⟩
  · intro s f hs hf
    simp [normalizeCounts, hs, hf]
  · intro rs hs hf hr
    simp [normalizeCounts, hs, hf, hr]
  · intro h
    subst h
    simp [normalizeBatch, normalizeCounts, normalizeMapped]

/-- Witness for C8 at a concrete result of each of the three shapes. -/
theorem claim8_normalization_shapes_witness :
    respCounts.successCount = some 5 ∧ respCounts.failureCount = some 2 ∧
    normalizeCounts respCounts = (5, 2) ∧
    respOnly.successCount = none ∧ respOnly.failureCount = none ∧
    respOnly.responses = some [{ success := true, error := none },
                               { success := false, error := some "gone" }] ∧
    normalizeCounts respOnly =
      ((([{ success := true, error := none },
          { success := false, error := some "gone" }].filter
            fun r : SendResponse => r.success).length : Int),
        (([{ success := true, error := none },
           { success := false, error := some "gone" }] : List SendResponse).length : Int)
          - (([{ success := true, error := none },
              { success := false, error := some "gone" }].filter
                fun r : SendResponse => r.success).length : Int)) ∧
    (respNeither = { responses := none, successCount := none, failureCount := none } ∧
     normalizeBatch respNeither ["a", "b"] =
       { batchSize := (["a", "b"] : List String).length, successCount := 0, failureCount := 0,
         details := (["a", "b"] : List String).mapIdx fun idx _ =>
           { success := none, error := some "no per-target info", index := idx } }) :=
  ⟨rfl, rfl, (claim8_normalization_shapes respCounts []).1 5 2 rfl rfl,
   rfl, rfl, rfl,
   (claim8_normalization_shapes respOnly []).2.1 _ rfl rfl rfl,
   rfl, (claim8_normalization_shapes respNeither ["a", "b"]).2.2 rfl⟩

/-- C4 counterexample: on a successful dispatch the 200 response body carries
only success and batches; the DispatchReport statistics fields the claim
requires (originalTotal, sanitizedKept, sanitizedRemovedCount,
sanitizedRemovedSample) are absent. -/
theorem claim4_counterexample :
    (handleSendForceOnline demoMessagingOk demoBody).fst = 200 ∧
    Json.lookup (handleSendForceOnline demoMessagingOk demoBody).snd "success"
      = some (.bool true) ∧
    (Json.lookup (handleSendForceOnline demoMessagingOk demoBody).snd "batches").isSome
      = true ∧
    Json.lookup (handleSendForceOnline demoMessagingOk demoBody).snd "originalTotal"
      = none ∧
    Json.lookup (handleSendForceOnline demoMessagingOk demoBody).snd "sanitizedKept"
      = none ∧
    Json.lookup (handleSendForceOnline demoMessagingOk demoBody).snd "sanitizedRemovedCount"
      = none ∧
    Json.lookup (handleSendForceOnline demoMessagingOk demoBody).snd "sanitizedRemovedSample"
      = none := by
  have hok : processBatches demoMessagingOk (tokenBatches ["tok1"])
      = .ok [normalizeBatch demoResult ["tok1"]] := by
    rw [tokenBatches_small ["tok1"] (by simp) (by simp)]
    simp [processBatches, sendBatchWithFallback, demoMessagingOk]
  have h200 := handleSend_ok demoMessagingOk demoBody ["tok1"]
    [normalizeBatch demoResult ["tok1"]] rfl (by simp) hok
  rw [h200]
  exact ⟨rfl, rfl, rfl, rfl, rfl, rfl, rfl⟩

/-- C4 amended: on a successful dispatch the 200 response body is exactly
`{success: true, batches: <summaries>}`, with no sanitizer statistics. -/
theorem claim4_success_shape (m : Messaging) (body : ReqBody) (ts : List String)
    (summary : List BatchSummary)
    (hsel : selectTokensJs body = some ts) (hne : ts ≠ [])
    (hok : processBatches m (tokenBatches ts) = .ok summary) :
    handleSendForceOnline m body =
      (200, .obj [("success", .bool true),
                  ("batches", .arr (summary.map batchSummaryToJson))]) :=
  handleSend_ok m body ts summary hsel hne hok

/-- Witness for the amended C4 at a concrete successful dispatch. -/
theorem claim4_success_shape_witness :
    selectTokensJs demoBody = some ["tok1"] ∧
    (["tok1"] : List String) ≠ [] ∧
    processBatches demoMessagingOk (tokenBatches ["tok1"])
      = .ok [normalizeBatch demoResult ["tok1"]] ∧
    handleSendForceOnline demoMessagingOk demoBody =
      (200, .obj [("success", .bool true),
                  ("batches", .arr ([normalizeBatch demoResult ["tok1"]].map
                      batchSummaryToJson))]) := by
  have hok : processBatches demoMessagingOk (tokenBatches ["tok1"])
      = .ok [normalizeBatch demoResult ["tok1"]] := by
    rw [tokenBatches_small ["tok1"] (by simp) (by simp)]
    simp [processBatches, sendBatchWithFallback, demoMessagingOk]
  exact ⟨rfl, by simp, hok,
    claim4_success_shape demoMessagingOk demoBody ["tok1"]
      [normalizeBatch demoResult ["tok1"]] rfl (by simp) hok⟩

theorem sanitizeAux_length (l : List RawElem) : ∀ (idx : Nat) (seen : List String),
    (sanitizeAux idx seen l).fst.length + (sanitizeAux idx seen l).snd.length = l.length := by
  induction l with
  | nil => intro idx seen; rfl
  | cons e rest ih =>
    intro idx seen
    cases e with
    | other r =>
      simp only [sanitizeAux, List.length_cons]
      have := ih (idx + 1) seen
      omega
    | str s =>
      simp only [sanitizeAux]
      split_ifs with h1 h2 h3
      · simp only [List.length_cons]
        have := ih (idx + 1) seen
        omega
      · simp only [List.length_cons]
        have := ih (idx + 1) seen
        omega
      · simp only [List.length_cons]
        have := ih (idx + 1) seen
        omega
      · simp only [List.length_cons]
        have := ih (idx + 1) (jsTrim s :: seen)
        omega

theorem sanitizeAux_cleaned_lb (l : List RawElem) : ∀ (idx : Nat) (seen : List String),
    ∀ c ∈ (sanitizeAux idx seen l).fst, idx ≤ c.originalIndex := by
  induction l with
  | nil => intro idx seen c hc; simp [sanitizeAux] at hc
  | cons e rest ih =>
    intro idx seen c hc
    cases e with
    | other r =>
      simp only [sanitizeAux] at hc
      have := ih (idx + 1) seen c hc
      omega
    | str s =>
      simp only [sanitizeAux] at hc
      split_ifs at hc with h1 h2 h3
      · have := ih (idx + 1) seen c hc; omega
      · have := ih (idx + 1) seen c hc; omega
      · have := ih (idx + 1) seen c hc; omega
      · rcases List.mem_cons.mp hc with h | h
        · subst h; exact Nat.le_refl idx
        · have := ih (idx + 1) (jsTrim s :: seen) c h; omega

theorem sanitizeAux_rejected_bounds (l : List RawElem) : ∀ (idx : Nat) (seen : List String),
    ∀ r ∈ (sanitizeAux idx seen l).snd,
      idx ≤ r.originalIndex ∧ r.originalIndex < idx + l.length := by
  induction l with
  | nil => intro idx seen r hr; simp [sanitizeAux] at hr
  | cons e rest ih =>
    intro idx seen r hr
    cases e with
    | other rd =>
      simp only [sanitizeAux] at hr
      rcases List.mem_cons.mp hr with h | h
      · subst h; simp
      · have := ih (idx + 1) seen r h; simp [List.length_cons]; omega
    | str s =>
      simp only [sanitizeAux] at hr
      split_ifs at hr with h1 h2 h3
      · rcases List.mem_cons.mp hr with h | h
        · subst h; simp
        · have := ih (idx + 1) seen r h; simp [List.length_cons]; omega
      · rcases List.mem_cons.mp hr with h | h
        · subst h; simp
        · have := ih (idx + 1) seen r h; simp [List.length_cons]; omega
      · rcases List.mem_cons.mp hr with h | h
        · subst h; simp
        · have := ih (idx + 1) seen r h; simp [List.length_cons]; omega
      · have := ih (idx + 1) (jsTrim s :: seen) r hr
        simp [List.length_cons]; omega

theorem sanitizeAux_disjoint (l : List RawElem) : ∀ (idx : Nat) (seen : List String),
    ∀ r ∈ (sanitizeAux idx seen l).snd,
      r.originalIndex ∉ (sanitizeAux idx seen l).fst.map fun c => c.originalIndex := by
  induction l with
  | nil => intro idx seen r hr; simp [sanitizeAux] at hr
  | cons e rest ih =>
    intro idx seen r hr
    cases e with
    | other rd =>
      simp only [sanitizeAux] at hr ⊢
      rcases List.mem_cons.mp hr with h | h
      · subst h
        intro hmem
        simp only [List.mem_map] at hmem
        obtain ⟨c, hc, hoi⟩ := hmem
        have hlb := sanitizeAux_cleaned_lb rest (idx + 1) seen c hc
        have hoi2 : c.originalIndex = idx := hoi
        omega
      · exact ih (idx + 1) seen r h
    | str s =>
      simp only [sanitizeAux] at hr ⊢
      split_ifs at hr ⊢ with h1 h2 h3
      · rcases List.mem_cons.mp hr with h | h
        · subst h
          intro hmem
          simp only [List.mem_map] at hmem
          obtain ⟨c, hc, hoi⟩ := hmem
          have hlb := sanitizeAux_cleaned_lb rest (idx + 1) seen c hc
          have hoi2 : c.originalIndex = idx := hoi
          omega
        · exact ih (idx + 1) seen r h
      · rcases List.mem_cons.mp hr with h | h
        · subst h
          intro hmem
          simp only [List.mem_map] at hmem
          obtain ⟨c, hc, hoi⟩ := hmem
          have hlb := sanitizeAux_cleaned_lb rest (idx + 1) seen c hc
          have hoi2 : c.originalIndex = idx := hoi
          omega
        · exact ih (idx + 1) seen r h
      · rcases List.mem_cons.mp hr with h | h
        · subst h
          intro hmem
          simp only [List.mem_map] at hmem
          obtain ⟨c, hc, hoi⟩ := hmem
          have hlb := sanitizeAux_cleaned_lb rest (idx + 1) seen c hc
          have hoi2 : c.originalIndex = idx := hoi
          omega
        · exact ih (idx + 1) seen r h
      · intro hmem
        simp only [List.map_cons, List.mem_cons] at hmem
        rcases hmem with h | h
        · have hb := sanitizeAux_rejected_bounds rest (idx + 1) (jsTrim s :: seen) r hr
          have h2 : r.originalIndex = idx := h
          omega
        · have hmem2 : r.originalIndex ∈
              (sanitizeAux (idx + 1) (jsTrim s :: seen) rest).fst.map fun c => c.originalIndex := h
          exact ih (idx + 1) (jsTrim s :: seen) r hr hmem2

/-- C3: Modelled from the spec (the Token Sanitizer is not among the source
files): sanitize splits any raw list into cleaned and rejected with
|cleaned| + |rejected| = |raw|, and every rejected entry's originalIndex is a
valid input position not present among the cleaned entries' indices. -/
theorem claim3_sanitize_partition (raw : List RawElem)
    (c : List CleanIdentifier) (rej : List RejectedIdentifier)
    (h : sanitize raw = (c, rej)) :
    c.length + rej.length = raw.length ∧
    ∀ r ∈ rej, r.originalIndex < raw.length ∧
      r.originalIndex ∉ c.map fun x => x.originalIndex := by
  obtain ⟨hc, hrj⟩ : (sanitizeAux 0 [] raw).fst = c ∧ (sanitizeAux 0 [] raw).snd = rej := by
    rw [show sanitizeAux 0 [] raw = (c, rej) from h]
    exact ⟨rfl, rfl⟩
  constructor
  · rw [← hc, ← hrj]
    exact sanitizeAux_length raw 0 []
  · intro r hr
    rw [← hrj] at hr
    constructor
    · have hb := (sanitizeAux_rejected_bounds raw 0 [] r hr).2
      omega
    · rw [← hc]
      exact sanitizeAux_disjoint raw 0 [] r hr

/-- Witness for C3 at a concrete raw list with one accepted identifier, one
too-short string and one non-string. -/
theorem claim3_sanitize_partition_witness :
    sanitize demoRaw = (demoCleaned, demoRejected) ∧
    (demoCleaned.length + demoRejected.length = demoRaw.length ∧
     ∀ r ∈ demoRejected, r.originalIndex < demoRaw.length ∧
       r.originalIndex ∉ demoCleaned.map fun x => x.originalIndex) :=
  ⟨by decide, claim3_sanitize_partition demoRaw demoCleaned demoRejected (by decide)⟩

end FcmRelay
